import Mathlib

/-!
Shallow embedding of `src/logitech.py` (warehouse allocation core) and proofs
about it.  Python machine integers are modelled as `Nat` where the source only
ever holds non-negative quantities fixed by the data model (capacities, package
sizes) and as `Int` where a lower bound is part of what is being verified
(`used_space`); exceptions are modelled as `Except` values.  The `shipment_logs`
audit table is modelled as the list of its committed rows; a row's wall-clock
timestamp is environment input irrelevant to every claim and is omitted.
-/

/-- Capacity-bounded storage unit (bin or truck): `StorageUnit.__init__` in
`src/logitech.py` stores the given capacity and `used_space = 0`.  The mutable
`used_space` is an `Int` so that the lower bound `0 ≤ used_space` of the
documented invariant is a real statement about `free_space`'s clamping. -/
structure StorageUnit where
  capacity : Nat
  used_space : Int
deriving DecidableEq

instance : Inhabited StorageUnit := ⟨⟨0, 0⟩⟩

deriving instance DecidableEq for Except

/-- Constructor semantics of `StorageUnit.__init__(capacity)`. -/
def StorageUnit.create (capacity : Nat) : StorageUnit :=
  { capacity := capacity, used_space := 0 }

/-- Semantics of `StorageUnit.occupy_space`: raises `ValueError("Not enough space")` when
`used_space + amount > capacity`, otherwise mutates `used_space += amount`.
The first component is the state the caller's object holds afterwards —
unchanged when the guard raises, since the raise happens before the mutation;
the second component records whether an exception was raised. -/
def occupy_space (u : StorageUnit) (amount : Nat) : StorageUnit × Except String Unit :=
  if u.used_space + (amount : Int) > (u.capacity : Int) then
    (u, Except.error ("Not enough space"))
  else
    ({ u with used_space := u.used_space + (amount : Int) }, Except.ok ())

/-- Semantics of `StorageUnit.free_space`: `used_space = max(0, used_space - amount)`. -/
def free_space (u : StorageUnit) (amount : Nat) : StorageUnit :=
  { u with used_space := max 0 (u.used_space - (amount : Int)) }

/-- Semantics of `StorageUnit.remaining_space`: `capacity - used_space`. -/
def remaining_space (u : StorageUnit) : Int :=
  (u.capacity : Int) - u.used_space

/-- Fields of `StorageBin(bin_id, capacity, location_code)`: a `StorageUnit` plus its
identity and location label. -/
structure StorageBin extends StorageUnit where
  bin_id : Int
  location_code : String
deriving DecidableEq

instance : Inhabited StorageBin := ⟨⟨default, 0, ""⟩⟩

/-- Fields of `Package(tracking_id, size, destination)`; immutable. -/
structure Package where
  tracking_id : String
  size : Nat
  destination : String
deriving DecidableEq

/-- Row of the `shipment_logs` audit table: `(tracking_id, bin_id, status)`. -/
structure ShipmentLog where
  tracking_id : String
  bin_id : Option Int
  status : String
deriving DecidableEq

/-- Python trucks are mutated through object references shared by the loading
stack; the model gives each truck an identity (its `truck_id`) and keeps truck
state in a heap indexed by that identity. -/
abbrev Trucks := String → StorageUnit

/-- Point update of the truck heap (mutation of the shared truck object). -/
def updTruck (trucks : Trucks) (tid : String) (u : StorageUnit) : Trucks :=
  fun t => if t = tid then u else trucks t

/-- In-memory fields of the singleton `WarehouseController`, plus the committed
rows of the `shipment_logs` table.  `stack_loading` keeps its most recently
pushed entry at the head (Python appends to, and pops from, the end). -/
structure WarehouseState where
  bin_inventory : List StorageBin
  queue_incoming : List Package
  stack_loading : List (String × Package)
  trucks : Trucks
  shipment_logs : List ShipmentLog

/-- Capacity of the bin at index `i`, as `find_best_fit_bin` reads it. -/
def binCap (bins : List StorageBin) (i : Nat) : Nat :=
  (bins.getD i default).capacity

/-- While loop of `WarehouseController.find_best_fit_bin`: binary search over
the capacity-sorted `bin_inventory` for a bin with `capacity >= pkg_size`.
`low`, `high`, `ans` are the Python variables; `mid = (low + high) // 2` is
Lean `Int` division, which agrees with Python floor division on these operands.
The loop is modelled with an explicit iteration bound `fuel`; the search
interval shrinks at every iteration, so the `bins.length + 1` iterations
supplied by `find_best_fit_bin` always run the loop to completion. -/
def find_best_fit_loop (bins : List StorageBin) (pkg_size : Nat) :
    Nat → Int → Int → Int → Int
  | 0, _, _, ans => ans
  | fuel + 1, low, high, ans =>
    if low ≤ high then
      let mid := (low + high) / 2
      if binCap bins mid.toNat ≥ pkg_size then
        find_best_fit_loop bins pkg_size fuel low (mid - 1) mid
      else
        find_best_fit_loop bins pkg_size fuel (mid + 1) high ans
    else ans

/-- Entry point `WarehouseController.find_best_fit_bin(pkg_size)`:
`low, high = 0, len(bin_inventory) - 1`, `ans = -1`. -/
def find_best_fit_bin (bins : List StorageBin) (pkg_size : Nat) : Int :=
  find_best_fit_loop bins pkg_size (bins.length + 1) 0 ((bins.length : Int) - 1) (-1)

/-- Stable insert used by `sortBinsByCapacity`. -/
def insertBinByCapacity (b : StorageBin) : List StorageBin → List StorageBin
  | [] => [b]
  | c :: rest =>
    if b.capacity < c.capacity then b :: c :: rest
    else c :: insertBinByCapacity b rest

/-- Model of `self.bin_inventory.sort(key=lambda b: b.capacity)`: Python's sort is a
stable sort by capacity, modelled as a stable insertion sort. -/
def sortBinsByCapacity : List StorageBin → List StorageBin
  | [] => []
  | b :: rest => insertBinByCapacity b (sortBinsByCapacity rest)

/-- Result of `WarehouseController.load_bins_from_db` on a fresh database: the empty
`bin_configuration` table is seeded with the four demo rows `(1,10,"A1")`,
`(2,20,"A2")`, `(3,50,"B1")`, `(4,100,"B2")`, which are then read back as
`StorageBin`s (with `used_space = 0`) and sorted by capacity. -/
def load_bins_from_db : List StorageBin :=
  sortBinsByCapacity
    (([((1 : Int), (10 : Nat), "A1"), (2, 20, "A2"), (3, 50, "B1"), (4, 100, "B2")]).map
      (fun r => { capacity := r.2.1, used_space := 0, bin_id := r.1, location_code := r.2.2 }))

/-- Observable outcome of one `process_package` call, mirroring its exits:
empty queue, committed `NO_BIN` record, committed `BIN_ASSIGNED` record (with
the chosen index), or the `except` handler (batch aborted). -/
inductive ProcOutcome where
  | noPackages : ProcOutcome
  | noBin : ProcOutcome
  | binAssigned : Nat → ProcOutcome
  | aborted : String → ProcOutcome
deriving DecidableEq

/-- Semantics of `WarehouseController.process_package`: pop the FIFO head, binary-search a
bin by nominal capacity, then either record `NO_BIN` (committed), or occupy the
chosen bin and record `BIN_ASSIGNED` (committed), or — when `occupy_space`
raises — fall into the `except` handler, which rolls the audit batch back:
nothing is recorded, and the bin list is unchanged because the raise happened
before any mutation of the bin object. -/
def process_package (st : WarehouseState) : WarehouseState × ProcOutcome :=
  match st.queue_incoming with
  | [] => (st, ProcOutcome.noPackages)
  | pkg :: rest =>
    let st1 := { st with queue_incoming := rest }
    let idx := find_best_fit_bin st1.bin_inventory pkg.size
    if idx = -1 then
      ({ st1 with shipment_logs :=
          st1.shipment_logs ++ [⟨pkg.tracking_id, none, "NO_BIN"⟩] },
        ProcOutcome.noBin)
    else
      let bin := st1.bin_inventory.getD idx.toNat default
      match occupy_space bin.toStorageUnit pkg.size with
      | (u, Except.ok _) =>
        ({ st1 with
            bin_inventory :=
              st1.bin_inventory.set idx.toNat { bin with toStorageUnit := u },
            shipment_logs :=
              st1.shipment_logs ++ [⟨pkg.tracking_id, some bin.bin_id, "BIN_ASSIGNED"⟩] },
          ProcOutcome.binAssigned idx.toNat)
      | (_, Except.error e) => (st1, ProcOutcome.aborted e)

/-- Drive `process_package` `n` times (the demo's processing loop), collecting
each call's outcome in order. -/
def process_many (st : WarehouseState) : Nat → WarehouseState × List ProcOutcome
  | 0 => (st, [])
  | n + 1 =>
    let r := process_package st
    let rs := process_many r.1 n
    (rs.1, r.2 :: rs.2)

/-- Capacity of the bin an outcome assigned its package to (bins never move in
`bin_inventory`; occupying changes only `used_space`, so the index keys the
same bin before and after the run). -/
def assignedCap (bins : List StorageBin) : ProcOutcome → Option Nat
  | ProcOutcome.binAssigned idx => some (binCap bins idx)
  | _ => none

/-- Semantics of `WarehouseController.try_load`: include-first / exclude-second depth-first
backtracking.  The Python function walks `pkgs` by index `i` and mutates the
accumulator `chosen` in place (append before the include call, pop when that
call fails, then fall through to the exclude call); the pure model recurses on
the remaining package list and returns the final `chosen` on success. -/
def try_load (pkgs : List Package) (space : Int) (chosen : List Package) :
    Option (List Package) :=
  match pkgs with
  | [] => if 0 < chosen.length ∧ 0 ≤ space then some chosen else none
  | pkg :: rest =>
    if (pkg.size : Int) ≤ space then
      match try_load rest (space - (pkg.size : Int)) (chosen ++ [pkg]) with
      | some result => some result
      | none => try_load rest space chosen
    else
      try_load rest space chosen

/-- Reference traversal order written from the spec's words (§4.3): every
subsequence of the candidate list, in the order an include-first,
exclude-second depth-first search visits them — at each item, all subsets that
keep it come before all subsets that drop it.  `try_load` is compared against
a first-match search over this order. -/
def includeFirstSubsets : List Package → List (List Package)
  | [] => [[]]
  | p :: rest =>
    (includeFirstSubsets rest).map (fun s => p :: s) ++ includeFirstSubsets rest

/-- Total size of a list of packages. -/
def sumSizes (l : List Package) : Nat := (l.map Package.size).sum

/-- Loading loop of `WarehouseController.load_fragile` (the `try:` body): for
each chosen package, push `(truck, pkg)` onto `stack_loading`, occupy the
truck, then append a `TRUCK_LOADED` audit row.  `failAt = some k` injects an
external persistence failure into the k-th `log_action` call (0-based),
modelling the unexpected-fault class of §7; `none` is a healthy run.  An
exception — injected, or a `ValueError` out of `occupy_space` — aborts the
loop, carrying out the truck heap and stack exactly as already mutated; the
audit rows staged so far are lost to the handler's `db.rollback()`. -/
def load_loop (trucks : Trucks) (stack : List (String × Package))
    (staged : List ShipmentLog) (tid : String) (pkgs : List Package) (k : Nat)
    (failAt : Option Nat) :
    Except (String × Trucks × List (String × Package))
      (Trucks × List (String × Package) × List ShipmentLog) :=
  match pkgs with
  | [] => Except.ok (trucks, stack, staged)
  | p :: rest =>
    let stack1 := (tid, p) :: stack
    match occupy_space (trucks tid) p.size with
    | (u, Except.ok _) =>
      let trucks1 := updTruck trucks tid u
      if failAt = some k then Except.error ("db failure", trucks1, stack1)
      else
        load_loop trucks1 stack1
          (staged ++ [⟨p.tracking_id, none, "TRUCK_LOADED"⟩]) tid rest (k + 1) failAt
    | (_, Except.error e) => Except.error (e, trucks, stack1)

/-- Semantics of `WarehouseController.load_fragile`: run the backtracking selection against
the truck's remaining space; on infeasibility return `[]` with nothing
mutated; otherwise run the loading loop and commit the staged audit rows, or —
on an exception — roll only the audit batch back, keeping whatever the loop
already mutated in memory.  Returns the chosen list exactly as the source
does, even after an abort. -/
def load_fragile (st : WarehouseState) (tid : String) (fragile_pkgs : List Package)
    (failAt : Option Nat) : WarehouseState × List Package :=
  match try_load fragile_pkgs (remaining_space (st.trucks tid)) [] with
  | none => (st, [])
  | some chosen =>
    match load_loop st.trucks st.stack_loading [] tid chosen 0 failAt with
    | Except.ok (trucks1, stack1, staged) =>
      ({ st with
          trucks := trucks1,
          stack_loading := stack1,
          shipment_logs := st.shipment_logs ++ staged }, chosen)
    | Except.error (_, trucks1, stack1) =>
      ({ st with trucks := trucks1, stack_loading := stack1 }, chosen)

/-- Audit row appended for each rolled-back ledger entry. -/
def mkRollbackLog (p : Package) : ShipmentLog := ⟨p.tracking_id, none, "ROLLBACK"⟩

/-- Effect of popping one ledger entry: release the recorded size from the
entry's container. -/
def releaseEntry (trucks : Trucks) (e : String × Package) : Trucks :=
  updTruck trucks e.1 (free_space (trucks e.1) e.2.size)

/-- While loop of `WarehouseController.rollback`: pop `stack_loading` while it
is non-empty and (`count is None or removed < count`), releasing each popped
entry's size from its truck and staging a `ROLLBACK` audit row. -/
def rollback_loop (trucks : Trucks) (stack : List (String × Package))
    (staged : List ShipmentLog) (count : Option Nat) (removed : Nat) :
    Trucks × List (String × Package) × List ShipmentLog :=
  match stack with
  | [] => (trucks, [], staged)
  | e :: rest =>
    if (match count with | none => true | some c => decide (removed < c)) then
      rollback_loop (releaseEntry trucks e) rest (staged ++ [mkRollbackLog e.2])
        count (removed + 1)
    else (trucks, e :: rest, staged)

/-- Semantics of `WarehouseController.rollback(count)`: run the undo loop, then commit the
staged `ROLLBACK` rows. -/
def rollback (st : WarehouseState) (count : Option Nat) : WarehouseState :=
  let r := rollback_loop st.trucks st.stack_loading [] count 0
  { st with
      trucks := r.1,
      stack_loading := r.2.1,
      shipment_logs := st.shipment_logs ++ r.2.2 }

/-- Documented container invariant (§3, §8): `0 <= used <= capacity`. -/
def storage_inv (u : StorageUnit) : Prop :=
  0 ≤ u.used_space ∧ u.used_space ≤ (u.capacity : Int)

instance (u : StorageUnit) : Decidable (storage_inv u) :=
  inferInstanceAs (Decidable (0 ≤ u.used_space ∧ u.used_space ≤ (u.capacity : Int)))

/-- Demo packages from `main()`. -/
def pkgP1 : Package := ⟨"P001", 5, "Delhi"⟩

/-- Demo package `P002`. -/
def pkgP2 : Package := ⟨"P002", 12, "Mumbai"⟩

/-- Demo package `P003`. -/
def pkgP3 : Package := ⟨"P003", 8, "Chennai"⟩

/-- Demo package `P004`. -/
def pkgP4 : Package := ⟨"P004", 25, "Kolkata"⟩

/-- Demo package `P005`. -/
def pkgP5 : Package := ⟨"P005", 9, "Bangalore"⟩

/-- FIFO admission order of the demo packages. -/
def demo_packages : List Package := [pkgP1, pkgP2, pkgP3, pkgP4, pkgP5]

/-- Fresh controller state as built by `get_instance()` on an empty database,
with the five demo packages already admitted to the FIFO queue. -/
def initial_state : WarehouseState :=
  { bin_inventory := load_bins_from_db, queue_incoming := demo_packages,
    stack_loading := [], trucks := fun _ => default, shipment_logs := [] }

/-- Per-package outcomes of processing the whole demo queue in FIFO order. -/
def demo_outcomes : List ProcOutcome := (process_many initial_state 5).2

/-- Capacity of the bin each demo package was assigned to (`none` = no
assignment recorded for that package). -/
def demo_assigned_caps : List (Option Nat) :=
  demo_outcomes.map (assignedCap load_bins_from_db)

/-- Concrete placement state: one bin of capacity 10 already holding 5, and an
incoming package of size 8 — best-fit selects the bin by nominal capacity, and
`occupy_space` then raises. -/
def c3_state : WarehouseState :=
  { bin_inventory := [{ capacity := 10, used_space := 5, bin_id := 1, location_code := "A1" }],
    queue_incoming := [⟨"X9", 8, "Delhi"⟩],
    stack_loading := [], trucks := fun _ => default, shipment_logs := [] }

/-- Fragile candidates of `main()`: sizes `[5, 8, 9]`. -/
def fragile_demo : List Package := [pkgP1, pkgP3, pkgP5]

/-- Heap holding the demo truck `T101` of capacity 40, initially empty. -/
def c4_trucks : Trucks := fun t => if t = "T101" then ⟨40, 0⟩ else default

/-- State for the truck-loading runs: empty warehouse, truck `T101` only. -/
def c4_state : WarehouseState :=
  { bin_inventory := [], queue_incoming := [], stack_loading := [],
    trucks := c4_trucks, shipment_logs := [] }

/-! ### Helper lemmas -/

theorem sumSizes_nil : sumSizes [] = 0 := rfl

theorem sumSizes_cons (p : Package) (l : List Package) :
    sumSizes (p :: l) = p.size + sumSizes l := by
  simp [sumSizes]

theorem sumSizes_append (l₁ l₂ : List Package) :
    sumSizes (l₁ ++ l₂) = sumSizes l₁ + sumSizes l₂ := by
  simp [sumSizes]

theorem binCap_eq_getElem (bins : List StorageBin) (i : Nat) (h : i < bins.length) :
    binCap bins i = bins[i].capacity := by
  rw [binCap, List.getD_eq_getElem bins default h]

theorem binCap_mono (bins : List StorageBin)
    (hs : List.Pairwise (fun a b => a.capacity ≤ b.capacity) bins)
    (i j : Nat) (hij : i ≤ j) (hj : j < bins.length) :
    binCap bins i ≤ binCap bins j := by
  rcases Nat.eq_or_lt_of_le hij with rfl | hlt
  · exact le_refl _
  · have hi : i < bins.length := Nat.lt_trans hlt hj
    rw [binCap_eq_getElem bins i hi, binCap_eq_getElem bins j hj]
    exact List.pairwise_iff_getElem.mp hs i j hi hj hlt

theorem rollback_loop_some (stack : List (String × Package)) :
    ∀ (trucks : Trucks) (staged : List ShipmentLog) (c removed : Nat),
      rollback_loop trucks stack staged (some c) removed =
        ((stack.take (c - removed)).foldl releaseEntry trucks,
          stack.drop (c - removed),
          staged ++ (stack.take (c - removed)).map (fun e => mkRollbackLog e.2)) := by
  induction stack with
  | nil =>
    intro trucks staged c removed
    simp [rollback_loop]
  | cons e rest ih =>
    intro trucks staged c removed
    by_cases h : removed < c
    · have hk : c - removed = (c - (removed + 1)) + 1 := by omega
      have hstep : rollback_loop trucks (e :: rest) staged (some c) removed =
          rollback_loop (releaseEntry trucks e) rest (staged ++ [mkRollbackLog e.2])
            (some c) (removed + 1) := by
        simp [rollback_loop, h]
      rw [hstep, ih, hk]
      simp [List.append_assoc]
    · have hk : c - removed = 0 := by omega
      simp [rollback_loop, h, hk]

theorem rollback_loop_none (stack : List (String × Package)) :
    ∀ (trucks : Trucks) (staged : List ShipmentLog) (removed : Nat),
      rollback_loop trucks stack staged none removed =
        (stack.foldl releaseEntry trucks, [],
          staged ++ stack.map (fun e => mkRollbackLog e.2)) := by
  induction stack with
  | nil =>
    intro trucks staged removed
    simp [rollback_loop]
  | cons e rest ih =>
    intro trucks staged removed
    simp only [rollback_loop, if_true]
    rw [ih]
    simp [List.append_assoc]

/-! ### Claim theorems -/

/-- C7: for every container the documented invariant `0 ≤ used ≤ capacity`
holds at creation and is preserved by every operation — `occupy_space` rejects
any amount that would push `used_space` above `capacity`, and `free_space`
clamps `used_space` at zero so it never becomes negative. -/
theorem storage_inv_preserved (capacity amount : Nat) (u : StorageUnit) :
    storage_inv (StorageUnit.create capacity) ∧
    (storage_inv u → storage_inv (occupy_space u amount).1) ∧
    (storage_inv u → storage_inv (free_space u amount)) ∧
    0 ≤ (free_space u amount).used_space := by
  refine ⟨?_, ?_, ?_, ?_⟩
  · unfold storage_inv StorageUnit.create
    constructor <;> simp
  · intro h
    unfold storage_inv at h ⊢
    unfold occupy_space
    split_ifs with hc
    · exact h
    · constructor <;> simp <;> omega
  · intro h
    unfold storage_inv at h ⊢
    unfold free_space
    constructor <;> simp <;> omega
  · unfold free_space
    simp

/-- C7 witness: the invariant facts at a concrete container of capacity 10
holding 4, reserving 3 and releasing 6. -/
theorem storage_inv_preserved_witness :
    storage_inv (StorageUnit.create 10) ∧
    storage_inv (occupy_space ⟨10, 4⟩ 3).1 ∧
    storage_inv (free_space ⟨10, 4⟩ 6) := by
  have h := storage_inv_preserved 10 3 ⟨10, 4⟩
  have h' := storage_inv_preserved 10 6 ⟨10, 4⟩
  exact ⟨h.1, h.2.1 (by decide), h'.2.2.1 (by decide)⟩

/-- C8: `occupy_space` fails (raising `ValueError`, the model of
`CapacityExceeded`) exactly when `used + amount > capacity`; on failure the
container is unchanged; on success `used` grows by `amount` and a subsequent
`free_space amount` restores `remaining_space` to its value before the
reserve.  The hypothesis `0 ≤ used_space` is the data model's lower bound
(claim C7), under which the round trip law holds. -/
theorem occupy_space_contract (u : StorageUnit) (amount : Nat)
    (hu : 0 ≤ u.used_space) :
    ((occupy_space u amount).2 = Except.error ("Not enough space") ↔
      u.used_space + (amount : Int) > (u.capacity : Int)) ∧
    (u.used_space + (amount : Int) > (u.capacity : Int) →
      (occupy_space u amount).1 = u) ∧
    (¬ (u.used_space + (amount : Int) > (u.capacity : Int)) →
      (occupy_space u amount).1.used_space = u.used_space + (amount : Int) ∧
      remaining_space (occupy_space u amount).1 =
        remaining_space u - (amount : Int) ∧
      remaining_space (free_space ((occupy_space u amount).1) amount) =
        remaining_space u) := by
  unfold occupy_space
  split_ifs with hc
  · refine ⟨?_, fun _ => rfl, fun h => absurd hc h⟩
    constructor
    · intro _
      exact hc
    · intro _
      rfl
  · refine ⟨?_, fun h => absurd h hc, fun _ => ?_⟩
    · constructor
      · intro h
        cases h
      · intro h
        exact absurd h hc
    · unfold remaining_space free_space
      refine ⟨rfl, ?_, ?_⟩ <;> simp <;> omega

/-- C8 witness: the contract at a container of capacity 10 holding 2,
reserving 3 (a success case). -/
theorem occupy_space_contract_witness :
    (0 : Int) ≤ (⟨10, 2⟩ : StorageUnit).used_space ∧
    (¬ ((⟨10, 2⟩ : StorageUnit).used_space + (3 : Int) > 10) →
      (occupy_space ⟨10, 2⟩ 3).1.used_space = 2 + (3 : Int) ∧
      remaining_space (occupy_space ⟨10, 2⟩ 3).1 = remaining_space ⟨10, 2⟩ - 3 ∧
      remaining_space (free_space ((occupy_space ⟨10, 2⟩ 3).1) 3) =
        remaining_space ⟨10, 2⟩) :=
  ⟨by decide, (occupy_space_contract ⟨10, 2⟩ 3 (by decide)).2.2⟩

/-- C6: `rollback (some n)` pops exactly `min n length` entries of the loading
ledger, most recently pushed first (the head of `stack_loading` is the last
push): the remaining ledger is `drop n`, each popped entry's size is released
from its container (the `foldl releaseEntry` over the popped prefix, in pop
order), and one `ROLLBACK` audit row per popped entry is committed in pop
order.  `rollback none` (count unspecified) drains the ledger to empty, and on
an empty ledger `rollback` is a total no-op, so running it twice is a no-op
both times. -/
theorem rollback_spec (st : WarehouseState) (n : Nat) (c c' : Option Nat) :
    (rollback st (some n)).stack_loading = st.stack_loading.drop (min n st.stack_loading.length) ∧
    (rollback st (some n)).shipment_logs =
      st.shipment_logs ++ (st.stack_loading.take n).map (fun e => mkRollbackLog e.2) ∧
    (rollback st (some n)).trucks = (st.stack_loading.take n).foldl releaseEntry st.trucks ∧
    (rollback st none).stack_loading = [] ∧
    (rollback st none).shipment_logs =
      st.shipment_logs ++ st.stack_loading.map (fun e => mkRollbackLog e.2) ∧
    (rollback st none).trucks = st.stack_loading.foldl releaseEntry st.trucks ∧
    rollback { st with stack_loading := [] } c = { st with stack_loading := [] } ∧
    rollback (rollback { st with stack_loading := [] } c) c' =
      { st with stack_loading := [] } := by
  have hs := rollback_loop_some st.stack_loading st.trucks [] n 0
  have hn := rollback_loop_none st.stack_loading st.trucks [] 0
  simp only [Nat.sub_zero, List.nil_append] at hs
  simp only [List.nil_append] at hn
  have hempty : ∀ c'' : Option Nat,
      rollback { st with stack_loading := [] } c'' = { st with stack_loading := [] } := by
    intro c''
    cases c'' <;> simp [rollback, rollback_loop]
  refine ⟨?_, ?_, ?_, ?_, ?_, ?_, hempty c, ?_⟩
  · simp only [rollback, hs]
    rcases Nat.le_total n st.stack_loading.length with h | h
    · rw [Nat.min_eq_left h]
    · rw [Nat.min_eq_right h, List.drop_eq_nil_of_le h,
        List.drop_eq_nil_of_le (le_refl st.stack_loading.length)]
  · simp only [rollback, hs]
  · simp only [rollback, hs]
  · simp only [rollback, hn]
  · simp only [rollback, hn]
  · simp only [rollback, hn]
  · rw [hempty c]
    exact hempty c'

theorem binCap_congr (b1 b2 : List StorageBin)
    (h : b1.map (fun b => b.capacity) = b2.map (fun b => b.capacity)) (i : Nat) :
    binCap b1 i = binCap b2 i := by
  have key : ∀ bins : List StorageBin,
      binCap bins i = ((bins.map (fun b => b.capacity)).getD i 0 : Nat) := by
    intro bins
    unfold binCap
    simp only [List.getD_eq_getElem?_getD, List.getElem?_map]
    cases bins[i]? <;> rfl
  rw [key b1, key b2, h]

theorem length_eq_of_capacity_map_eq (b1 b2 : List StorageBin)
    (h : b1.map (fun b => b.capacity) = b2.map (fun b => b.capacity)) :
    b1.length = b2.length := by
  have := congrArg List.length h
  simpa using this

theorem find_best_fit_loop_congr (b1 b2 : List StorageBin) (size : Nat)
    (h : b1.map (fun b => b.capacity) = b2.map (fun b => b.capacity)) :
    ∀ (fuel : Nat) (low high ans : Int),
      find_best_fit_loop b1 size fuel low high ans =
        find_best_fit_loop b2 size fuel low high ans := by
  intro fuel
  induction fuel with
  | zero => intro low high ans; rfl
  | succ fuel ih =>
    intro low high ans
    simp only [find_best_fit_loop]
    rw [binCap_congr b1 b2 h]
    by_cases hlh : low ≤ high
    · simp only [if_pos hlh]
      by_cases hcap : binCap b2 ((low + high) / 2).toNat ≥ size
      · simp only [if_pos hcap, ih]
      · simp only [if_neg hcap, ih]
    · simp only [if_neg hlh]

/-- C9: the result of `find_best_fit_bin` depends only on the bins' nominal
capacities and their order, never on their `used_space`: two inventories with
the same capacity sequence give the same answer for every query size.  In
particular a bin whose remaining space is insufficient is still selected, and
the placement then fails at `occupy_space` (the concrete instance is claim
C1's third demo package). -/
theorem find_best_fit_ignores_used_space (b1 b2 : List StorageBin) (size : Nat)
    (h : b1.map (fun b => b.capacity) = b2.map (fun b => b.capacity)) :
    find_best_fit_bin b1 size = find_best_fit_bin b2 size := by
  unfold find_best_fit_bin
  rw [length_eq_of_capacity_map_eq b1 b2 h]
  exact find_best_fit_loop_congr b1 b2 size h (b2.length + 1) 0 ((b2.length : Int) - 1) (-1)

/-- C9 witness: inventories equal up to `used_space` (the second has its
capacity-10 bin full and its capacity-20 bin half full) agree on best-fit for
query size 8. -/
theorem find_best_fit_ignores_used_space_witness :
    ([⟨⟨10, 0⟩, 1, "A1"⟩, ⟨⟨20, 0⟩, 2, "A2"⟩] : List StorageBin).map (fun b => b.capacity) =
      ([⟨⟨10, 10⟩, 1, "A1"⟩, ⟨⟨20, 11⟩, 2, "A2"⟩] : List StorageBin).map (fun b => b.capacity) ∧
    find_best_fit_bin [⟨⟨10, 0⟩, 1, "A1"⟩, ⟨⟨20, 0⟩, 2, "A2"⟩] 8 =
      find_best_fit_bin [⟨⟨10, 10⟩, 1, "A1"⟩, ⟨⟨20, 11⟩, 2, "A2"⟩] 8 ∧
    find_best_fit_bin [⟨⟨10, 10⟩, 1, "A1"⟩, ⟨⟨20, 11⟩, 2, "A2"⟩] 8 = 0 ∧
    (occupy_space (⟨10, 10⟩ : StorageUnit) 8).2 = Except.error ("Not enough space") :=
  ⟨by decide,
    find_best_fit_ignores_used_space [⟨⟨10, 0⟩, 1, "A1"⟩, ⟨⟨20, 0⟩, 2, "A2"⟩]
      [⟨⟨10, 10⟩, 1, "A1"⟩, ⟨⟨20, 11⟩, 2, "A2"⟩] 8 (by decide),
    by decide, by decide⟩

theorem find_best_fit_loop_spec (bins : List StorageBin) (size : Nat)
    (hs : List.Pairwise (fun a b => a.capacity ≤ b.capacity) bins) :
    ∀ (fuel : Nat) (low high ans : Int),
      0 ≤ low → high < (bins.length : Int) →
      (high + 1 - low).toNat < fuel →
      (∀ j : Nat, (j : Int) < low → j < bins.length → binCap bins j < size) →
      ((ans = -1 ∧ high = (bins.length : Int) - 1) ∨
        (0 ≤ ans ∧ ans = high + 1 ∧ ans < (bins.length : Int) ∧
          size ≤ binCap bins ans.toNat)) →
      ((find_best_fit_loop bins size fuel low high ans = -1 ∧
          ∀ j : Nat, j < bins.length → binCap bins j < size) ∨
        (∃ i : Nat, find_best_fit_loop bins size fuel low high ans = (i : Int) ∧
          i < bins.length ∧ size ≤ binCap bins i ∧
          ∀ j : Nat, j < i → binCap bins j < size)) := by
  intro fuel
  induction fuel with
  | zero =>
    intro low high ans h0 hh hf hlow hans
    omega
  | succ fuel ih =>
    intro low high ans h0 hh hf hlow hans
    by_cases hlh : low ≤ high
    · have hmb : low ≤ (low + high) / 2 ∧ (low + high) / 2 ≤ high := by omega
      simp only [find_best_fit_loop, if_pos hlh]
      by_cases hcap : binCap bins ((low + high) / 2).toNat ≥ size
      · simp only [if_pos hcap]
        apply ih
        · exact h0
        · omega
        · omega
        · exact hlow
        · right
          refine ⟨by omega, by omega, by omega, hcap⟩
      · simp only [if_neg hcap]
        apply ih
        · omega
        · exact hh
        · omega
        · intro j hj hjlen
          by_cases hjl : (j : Int) < low
          · exact hlow j hjl hjlen
          · have hjm : j ≤ ((low + high) / 2).toNat := by omega
            have hmono := binCap_mono bins hs j ((low + high) / 2).toNat hjm (by omega)
            omega
        · exact hans
    · simp only [find_best_fit_loop, if_neg hlh]
      rcases hans with ⟨ha, hh1⟩ | ⟨ha0, hae, hal, hac⟩
      · left
        refine ⟨ha, fun j hj => hlow j (by omega) hj⟩
      · right
        refine ⟨ans.toNat, by omega, by omega, hac, ?_⟩
        intro j hj
        exact hlow j (by omega) (by omega)

/-- C2: on every capacity-sorted inventory, `find_best_fit_bin` returns either
`-1` — exactly when no bin's nominal capacity reaches the query size — or the
index of a qualifying bin such that every earlier bin is too small: the
leftmost qualifying index, which under sortedness is the bin of smallest
qualifying capacity, and the lowest index among bins of that equal capacity
(final conjunct). -/
theorem find_best_fit_bin_correct (bins : List StorageBin) (size : Nat)
    (hs : List.Pairwise (fun a b => a.capacity ≤ b.capacity) bins) :
    (find_best_fit_bin bins size = -1 ∧
      ∀ j : Nat, j < bins.length → binCap bins j < size) ∨
    (∃ i : Nat, find_best_fit_bin bins size = (i : Int) ∧ i < bins.length ∧
      size ≤ binCap bins i ∧ (∀ j : Nat, j < i → binCap bins j < size) ∧
      (∀ j : Nat, j < bins.length → size ≤ binCap bins j →
        binCap bins i ≤ binCap bins j ∧ i ≤ j)) := by
  have h := find_best_fit_loop_spec bins size hs (bins.length + 1) 0
    ((bins.length : Int) - 1) (-1) (le_refl 0) (by omega) (by omega)
    (fun j hj _ => absurd hj (by omega)) (Or.inl ⟨rfl, rfl⟩)
  unfold find_best_fit_bin
  rcases h with ⟨h1, h2⟩ | ⟨i, h1, h2, h3, h4⟩
  · exact Or.inl ⟨h1, h2⟩
  · right
    refine ⟨i, h1, h2, h3, h4, ?_⟩
    intro j hj hsz
    have hij : i ≤ j := by
      by_contra hc
      push_neg at hc
      have := h4 j hc
      omega
    exact ⟨binCap_mono bins hs i j hij hj, hij⟩

/-- C2 witness: the spec's concrete cases on capacities `[10,20,50,100]` —
query 15 selects index 1 (the capacity-20 bin) and query 150 selects none. -/
theorem find_best_fit_bin_correct_witness :
    List.Pairwise (fun a b => a.capacity ≤ b.capacity) load_bins_from_db ∧
    ((find_best_fit_bin load_bins_from_db 150 = -1 ∧
        ∀ j : Nat, j < load_bins_from_db.length → binCap load_bins_from_db j < 150) ∨
      (∃ i : Nat, find_best_fit_bin load_bins_from_db 150 = (i : Int) ∧
        i < load_bins_from_db.length ∧ 150 ≤ binCap load_bins_from_db i ∧
        (∀ j : Nat, j < i → binCap load_bins_from_db j < 150) ∧
        (∀ j : Nat, j < load_bins_from_db.length → 150 ≤ binCap load_bins_from_db j →
          binCap load_bins_from_db i ≤ binCap load_bins_from_db j ∧ i ≤ j))) ∧
    find_best_fit_bin load_bins_from_db 15 = 1 ∧
    binCap load_bins_from_db 1 = 20 ∧
    find_best_fit_bin load_bins_from_db 150 = -1 :=
  ⟨by decide, find_best_fit_bin_correct load_bins_from_db 150 (by decide),
    by decide, by decide, by decide⟩

theorem try_load_acc_nonempty (pkgs : List Package) :
    ∀ (space : Int) (chosen : List Package), chosen ≠ [] →
      try_load pkgs space chosen =
        Option.map (fun s => chosen ++ s)
          ((includeFirstSubsets pkgs).find?
            (fun s => decide ((sumSizes s : Int) ≤ space))) := by
  induction pkgs with
  | nil =>
    intro space chosen hc
    have hlen : 0 < chosen.length := List.length_pos.mpr hc
    simp only [try_load, includeFirstSubsets]
    by_cases hsp : (0 : Int) ≤ space
    · rw [if_pos ⟨hlen, hsp⟩]
      rw [List.find?_cons_of_pos _ (by simp [sumSizes, hsp])]
      simp
    · rw [if_neg (fun h => hsp h.2)]
      rw [List.find?_cons_of_neg _ (by simp [sumSizes, hsp])]
      simp [List.find?]
  | cons p rest ih =>
    intro space chosen hc
    simp only [try_load, includeFirstSubsets]
    rw [List.find?_append, List.find?_map]
    have hpred : ((fun s => decide ((sumSizes s : Int) ≤ space)) ∘ (fun s => p :: s))
        = (fun s => decide ((sumSizes s : Int) ≤ space - (p.size : Int))) := by
      funext s
      simp only [Function.comp_apply]
      rw [decide_eq_decide, sumSizes_cons]
      push_cast
      omega
    rw [hpred]
    by_cases hp : (p.size : Int) ≤ space
    · rw [if_pos hp]
      rw [ih (space - (p.size : Int)) (chosen ++ [p]) (by simp)]
      cases hfind : (includeFirstSubsets rest).find?
          (fun s => decide ((sumSizes s : Int) ≤ space - (p.size : Int))) with
      | some s0 => simp [List.append_assoc]
      | none =>
        simp only [Option.map_none', Option.none_or]
        exact ih space chosen hc
    · rw [if_neg hp]
      have hnone : (includeFirstSubsets rest).find?
          (fun s => decide ((sumSizes s : Int) ≤ space - (p.size : Int))) = none := by
        rw [List.find?_eq_none]
        intro s hs
        simp only [decide_eq_true_eq]
        omega
      rw [hnone]
      simp only [Option.map_none', Option.none_or]
      exact ih space chosen hc

theorem try_load_eq_first_feasible (pkgs : List Package) (budget : Int) :
    try_load pkgs budget [] =
      (includeFirstSubsets pkgs).find?
        (fun s => decide (s ≠ []) && decide ((sumSizes s : Int) ≤ budget)) := by
  induction pkgs with
  | nil =>
    simp [try_load, includeFirstSubsets, List.find?]
  | cons p rest ih =>
    simp only [try_load, includeFirstSubsets]
    rw [List.find?_append, List.find?_map]
    have hpred : ((fun s => decide (s ≠ []) && decide ((sumSizes s : Int) ≤ budget)) ∘
          (fun s => p :: s))
        = (fun s => decide ((sumSizes s : Int) ≤ budget - (p.size : Int))) := by
      funext s
      simp only [Function.comp_apply]
      rw [decide_eq_true (List.cons_ne_nil p s), Bool.true_and]
      rw [decide_eq_decide, sumSizes_cons]
      push_cast
      omega
    rw [hpred]
    by_cases hp : (p.size : Int) ≤ budget
    · rw [if_pos hp]
      rw [show ([] : List Package) ++ [p] = [p] from rfl]
      rw [try_load_acc_nonempty rest (budget - (p.size : Int)) [p] (by simp)]
      cases hfind : (includeFirstSubsets rest).find?
          (fun s => decide ((sumSizes s : Int) ≤ budget - (p.size : Int))) with
      | some s0 => simp
      | none =>
        simp only [Option.map_none', Option.none_or]
        exact ih
    · rw [if_neg hp]
      have hnone : (includeFirstSubsets rest).find?
          (fun s => decide ((sumSizes s : Int) ≤ budget - (p.size : Int))) = none := by
        rw [List.find?_eq_none]
        intro s hs
        simp only [decide_eq_true_eq]
        omega
      rw [hnone]
      simp only [Option.map_none', Option.none_or]
      exact ih

/-- C5: for every candidate list of positive-size packages and every budget,
`try_load` equals a first-match search over the include-first/exclude-second
traversal order: it returns the first non-empty subset of the candidates (in
that order) whose total size fits the budget, and `none` ("infeasible") when
no non-empty subset fits — in particular when every single item exceeds the
budget, since then no non-empty subset passes the size test. -/
theorem try_load_first_feasible (pkgs : List Package) (budget : Int)
    (hpos : ∀ p ∈ pkgs, 0 < p.size) :
    try_load pkgs budget [] =
      (includeFirstSubsets pkgs).find?
        (fun s => decide (s ≠ []) && decide ((sumSizes s : Int) ≤ budget)) :=
  try_load_eq_first_feasible pkgs budget

/-- C5 witness: the spec's concrete case — sizes `[5, 8, 9]` with budget 13
select exactly the packages of sizes 5 and 8. -/
theorem try_load_first_feasible_witness :
    (∀ p ∈ fragile_demo, 0 < p.size) ∧
    try_load fragile_demo 13 [] =
      (includeFirstSubsets fragile_demo).find?
        (fun s => decide (s ≠ []) && decide ((sumSizes s : Int) ≤ 13)) ∧
    try_load fragile_demo 13 [] = some [pkgP1, pkgP3] ∧
    sumSizes [pkgP1, pkgP3] = 13 :=
  ⟨by decide, try_load_first_feasible fragile_demo 13 (by decide), by decide, by decide⟩

theorem try_load_sum_le (pkgs : List Package) :
    ∀ (space : Int) (chosen r : List Package),
      try_load pkgs space chosen = some r →
      (sumSizes r : Int) ≤ space + (sumSizes chosen : Int) := by
  induction pkgs with
  | nil =>
    intro space chosen r h
    simp only [try_load] at h
    by_cases hc : 0 < chosen.length ∧ 0 ≤ space
    · rw [if_pos hc] at h
      injection h with h
      subst h
      omega
    · rw [if_neg hc] at h
      cases h
  | cons p rest ih =>
    intro space chosen r h
    simp only [try_load] at h
    by_cases hp : (p.size : Int) ≤ space
    · rw [if_pos hp] at h
      cases hm : try_load rest (space - (p.size : Int)) (chosen ++ [p]) with
      | some r2 =>
        rw [hm] at h
        cases h
        have hr := ih (space - (p.size : Int)) (chosen ++ [p]) _ hm
        rw [sumSizes_append, sumSizes_cons, sumSizes_nil] at hr
        push_cast at hr ⊢
        omega
      | none =>
        rw [hm] at h
        exact ih space chosen r h
    · rw [if_neg hp] at h
      exact ih space chosen r h

theorem load_loop_ok (pkgs : List Package) :
    ∀ (trucks : Trucks) (stack : List (String × Package))
      (staged : List ShipmentLog) (k : Nat) (tid : String),
      (sumSizes pkgs : Int) ≤ remaining_space (trucks tid) →
      ∃ (trucks1 : Trucks) (stack1 : List (String × Package))
        (staged1 : List ShipmentLog),
        load_loop trucks stack staged tid pkgs k none =
          Except.ok (trucks1, stack1, staged1) ∧
        (trucks1 tid).used_space = (trucks tid).used_space + (sumSizes pkgs : Int) ∧
        (trucks1 tid).capacity = (trucks tid).capacity := by
  induction pkgs with
  | nil =>
    intro trucks stack staged k tid h
    refine ⟨trucks, stack, staged, rfl, ?_, rfl⟩
    rw [sumSizes_nil]
    simp
  | cons p rest ih =>
    intro trucks stack staged k tid h
    rw [sumSizes_cons] at h
    unfold remaining_space at h
    push_cast at h
    have hguard : ¬ ((trucks tid).used_space + (p.size : Int) > ((trucks tid).capacity : Int)) := by
      omega
    have hocc : occupy_space (trucks tid) p.size =
        ({ trucks tid with used_space := (trucks tid).used_space + (p.size : Int) },
          Except.ok ()) := by
      unfold occupy_space
      rw [if_neg hguard]
    simp only [load_loop, hocc]
    have hfail : ((none : Option Nat) = some k) = False := by simp
    simp only [hfail, if_false]
    have hupd : (updTruck trucks tid
        { trucks tid with used_space := (trucks tid).used_space + (p.size : Int) }) tid =
        { trucks tid with used_space := (trucks tid).used_space + (p.size : Int) } := by
      simp [updTruck]
    have hrem : (sumSizes rest : Int) ≤ remaining_space
        ((updTruck trucks tid
          { trucks tid with used_space := (trucks tid).used_space + (p.size : Int) }) tid) := by
      rw [hupd]
      unfold remaining_space
      simp
      omega
    obtain ⟨t1, s1, g1, heq, hused, hcap⟩ := ih
      (updTruck trucks tid
        { trucks tid with used_space := (trucks tid).used_space + (p.size : Int) })
      ((tid, p) :: stack) (staged ++ [⟨p.tracking_id, none, "TRUCK_LOADED"⟩])
      (k + 1) tid hrem
    refine ⟨t1, s1, g1, heq, ?_, ?_⟩
    · rw [hused, hupd, sumSizes_cons]
      push_cast
      omega
    · rw [hcap, hupd]

/-- C10: whenever `try_load` returns a subset, that subset's total size is at
most the budget it searched under; consequently, applying the chosen subset
in `load_fragile` — occupying the truck once per chosen package against a
budget equal to the truck's remaining space, with no intervening mutation —
runs the whole loading loop without `occupy_space` ever raising (the loop
returns `Except.ok`, never the exception branch), leaving the truck holding
exactly its old `used_space` plus the subset's total. -/
theorem load_fragile_apply_safe (st : WarehouseState) (tid : String)
    (pkgs chosen : List Package)
    (h : try_load pkgs (remaining_space (st.trucks tid)) [] = some chosen) :
    (sumSizes chosen : Int) ≤ remaining_space (st.trucks tid) ∧
    ∃ (trucks1 : Trucks) (stack1 : List (String × Package))
      (staged1 : List ShipmentLog),
      load_loop st.trucks st.stack_loading [] tid chosen 0 none =
        Except.ok (trucks1, stack1, staged1) ∧
      (trucks1 tid).used_space = (st.trucks tid).used_space + (sumSizes chosen : Int) := by
  have hsum := try_load_sum_le pkgs (remaining_space (st.trucks tid)) [] chosen h
  rw [sumSizes_nil] at hsum
  have hsum' : (sumSizes chosen : Int) ≤ remaining_space (st.trucks tid) := by
    push_cast at hsum
    omega
  obtain ⟨t1, s1, g1, heq, hused, _⟩ :=
    load_loop_ok chosen st.trucks st.stack_loading [] 0 tid hsum'
  exact ⟨hsum', t1, s1, g1, heq, hused⟩

/-- C10 witness: the demo loading run — truck of capacity 40, candidate sizes
`[5, 8, 9]`, all chosen; the loop returns `ok` and the truck ends at 22. -/
theorem load_fragile_apply_safe_witness :
    try_load fragile_demo (remaining_space (c4_state.trucks ("T101"))) [] =
      some [pkgP1, pkgP3, pkgP5] ∧
    ((sumSizes [pkgP1, pkgP3, pkgP5] : Int) ≤
        remaining_space (c4_state.trucks ("T101")) ∧
      ∃ (trucks1 : Trucks) (stack1 : List (String × Package))
        (staged1 : List ShipmentLog),
        load_loop c4_state.trucks c4_state.stack_loading [] ("T101")
            [pkgP1, pkgP3, pkgP5] 0 none =
          Except.ok (trucks1, stack1, staged1) ∧
        (trucks1 ("T101")).used_space =
          (c4_state.trucks ("T101")).used_space + (sumSizes [pkgP1, pkgP3, pkgP5] : Int)) :=
  ⟨by decide,
    load_fragile_apply_safe c4_state ("T101") fragile_demo [pkgP1, pkgP3, pkgP5] (by decide)⟩

/-- C1 is false as stated: processing the five demo packages (sizes
`[5,12,8,25,9]`) in FIFO order against the freshly bootstrapped bins
`[10,20,50,100]` does not assign them to bins of capacities
`20, 20, 50, 50, 20`. -/
theorem demo_run_not_bins_20_20_50_50_20 :
    ¬ (demo_assigned_caps = [some 20, some 20, some 50, some 50, some 20]) := by
  decide

/-- C1 (amended): the run assigns the size-5 package to the capacity-10 bin
(the smallest nominal capacity `≥ 5`), the size-12 package to the capacity-20
bin, and the size-25 package to the capacity-50 bin; the size-8 and size-9
packages each best-fit the capacity-10 bin, whose remaining space is by then
insufficient, so their placements fail at `occupy_space` (batch aborted,
nothing recorded) — best-fit candidacy is determined by nominal capacity, not
remaining space. -/
theorem demo_run_assignments :
    demo_assigned_caps = [some 10, some 20, none, some 50, none] ∧
    demo_outcomes = [ProcOutcome.binAssigned 0, ProcOutcome.binAssigned 1,
      ProcOutcome.aborted ("Not enough space"), ProcOutcome.binAssigned 2,
      ProcOutcome.aborted ("Not enough space")] ∧
    binCap load_bins_from_db 0 = 10 ∧ binCap load_bins_from_db 1 = 20 ∧
    binCap load_bins_from_db 2 = 50 := by
  refine ⟨by decide, by decide, by decide, by decide, by decide⟩

/-- C3 is false as stated: at `c3_state` the placement attempt raises the
capacity exception inside `occupy_space`, and `process_package` does not
record the attempt as the expected `NO_BIN` outcome — the handler aborts the
audit batch, so nothing at all is recorded, unlike the no-qualifying-bin case
which commits a `NO_BIN` row. -/
theorem capacity_error_not_recorded_as_no_fit :
    (occupy_space ((c3_state.bin_inventory.getD 0 default).toStorageUnit) 8).2
      = Except.error ("Not enough space") ∧
    (process_package c3_state).1.shipment_logs = [] ∧
    (process_package c3_state).2 ≠ ProcOutcome.noBin ∧
    (process_package c3_state).2 = ProcOutcome.aborted ("Not enough space") := by
  refine ⟨by decide, by decide, by decide, by decide⟩

/-- C3 (amended): when `occupy_space` raises during a placement attempt, the
exception never propagates past the controller — `process_package` returns
normally — but the recovery is an aborted batch, not a recorded no-fit: the
resulting state differs from the pre-call state only in the consumed queue
head (bins, ledger and committed audit rows unchanged), and the outcome is
`aborted`, not the `noBin` outcome of the no-qualifying-container case. -/
theorem process_package_catches_capacity_error (st : WarehouseState)
    (pkg : Package) (rest : List Package) (msg : String)
    (hq : st.queue_incoming = pkg :: rest)
    (hidx : find_best_fit_bin st.bin_inventory pkg.size ≠ -1)
    (hocc : (occupy_space
        (st.bin_inventory.getD
          (find_best_fit_bin st.bin_inventory pkg.size).toNat default).toStorageUnit
        pkg.size).2 = Except.error msg) :
    process_package st = ({ st with queue_incoming := rest }, ProcOutcome.aborted msg) := by
  unfold process_package
  rw [hq]
  simp only []
  rw [if_neg hidx]
  rcases hr : occupy_space
      (st.bin_inventory.getD
        (find_best_fit_bin st.bin_inventory pkg.size).toNat default).toStorageUnit
      pkg.size with ⟨u, exc⟩
  rw [hr] at hocc
  cases exc with
  | ok a => cases hocc
  | error e =>
    have he : e = msg := by simpa using hocc
    subst he
    rfl

/-- C3 witness: the amended behaviour at the concrete state `c3_state` (one
capacity-10 bin holding 5, incoming package of size 8). -/
theorem process_package_catches_capacity_error_witness :
    c3_state.queue_incoming = (⟨"X9", 8, "Delhi"⟩ : Package) :: [] ∧
    find_best_fit_bin c3_state.bin_inventory 8 ≠ -1 ∧
    (occupy_space
        (c3_state.bin_inventory.getD
          (find_best_fit_bin c3_state.bin_inventory 8).toNat default).toStorageUnit 8).2
      = Except.error ("Not enough space") ∧
    process_package c3_state =
      ({ c3_state with queue_incoming := [] }, ProcOutcome.aborted ("Not enough space")) :=
  ⟨rfl, by decide, by decide,
    process_package_catches_capacity_error c3_state ⟨"X9", 8, "Delhi"⟩ []
      ("Not enough space") rfl (by decide) (by decide)⟩

/-- C4: a concrete execution in which an injected persistence failure (the
second `log_action` call of a `load_fragile` batch raises) aborts the batch
partway through: the controller's handler rolls back only the external audit
batch — the committed `shipment_logs` are exactly as before — while the
in-memory mutations already applied inside the batch remain: the truck keeps
the 5 + 8 = 13 units occupied by the two packages loaded before the fault,
and both ledger pushes stay on `stack_loading`. -/
theorem abort_keeps_applied_mutations :
    ((load_fragile c4_state ("T101") fragile_demo (some 1)).1.trucks ("T101")).used_space
      = 13 ∧
    (load_fragile c4_state ("T101") fragile_demo (some 1)).1.stack_loading
      = [(("T101"), pkgP3), (("T101"), pkgP1)] ∧
    (load_fragile c4_state ("T101") fragile_demo (some 1)).1.shipment_logs
      = c4_state.shipment_logs ∧
    (c4_state.trucks ("T101")).used_space = 0 ∧
    c4_state.stack_loading = [] ∧
    (load_fragile c4_state ("T101") fragile_demo (some 1)).2 = [pkgP1, pkgP3, pkgP5] := by
  refine ⟨by decide, by decide, by decide, by decide, by decide, by decide⟩
